import Mathlib

set_option autoImplicit false

/-! Shallow embedding of the calendar/scheduling core of the `synapse`
repository (src/index.tsx and the unnamed variant files src/unnamed/part_000,
part_001, part_002). JavaScript `Date` values are modelled by their local
calendar components (year, 0-based month as returned by `getMonth()`, day of
month, hour, minute, second); the local time zone is taken to be a fixed
offset, so building a timestamp string from components and parsing it back
preserves the components. Monetary `number` fee values are modelled as exact
rationals (the claims under study concern which amounts are aggregated, not
floating-point rounding). -/

/-- Calendar date as produced by `new Date(year, month, day)` at midnight:
`month` is 0-based, mirroring `Date.prototype.getMonth` (March is month 2). -/
structure CalDate where
  year : Nat
  month : Nat
  day : Nat
  deriving DecidableEq, Repr

/-- Timestamp value, modelled by the local components a JavaScript `Date`
exposes: `getFullYear`, `getMonth` (0-based), `getDate`, `getHours`,
`getMinutes`, `getSeconds`. A stored ISO / `YYYY-MM-DDTHH:MM` string is
modelled by the components it parses back to. -/
structure LocalDateTime where
  year : Nat
  month : Nat
  day : Nat
  hour : Nat
  minute : Nat
  second : Nat
  deriving DecidableEq, Repr

/-- Proleptic-Gregorian leap-year rule implemented by the JavaScript `Date`. -/
def isLeap (y : Nat) : Bool :=
  (y % 4 == 0 && y % 100 != 0) || y % 400 == 0

/-- Length of 0-based month `m` (for `m < 12`) of year `y`. -/
def monthLength (y m : Nat) : Nat :=
  match m with
  | 0 => 31
  | 1 => if isLeap y then 29 else 28
  | 2 => 31
  | 3 => 30
  | 4 => 31
  | 5 => 30
  | 6 => 31
  | 7 => 31
  | 8 => 30
  | 9 => 31
  | 10 => 30
  | _ => 31

/-- Number of days of 0-based month `m` of year `y`, the value the source
computes as `new Date(year, month + 1, 0).getDate()` (src/index.tsx line 570,
src/unnamed/part_002 line 694). JavaScript rolls a month index `≥ 12` into
later years, hence the normalisation. -/
def daysInMonth (y m : Nat) : Nat :=
  monthLength (y + m / 12) (m % 12)

/-- Number of days of year `y`. -/
def daysInYear (y : Nat) : Nat :=
  if isLeap y then 366 else 365

/-- Days from 1970-01-01 to the start of year `1970 + n`. -/
def daysToYearAux : Nat → Nat
  | 0 => 0
  | n + 1 => daysToYearAux n + daysInYear (1970 + n)

/-- Days from the Unix epoch to `y`-01-01 (meaningful for `y ≥ 1970`, the
range in which the application's dates live). -/
def daysToYear (y : Nat) : Nat :=
  daysToYearAux (y - 1970)

/-- Days from `y`-01-01 to the first day of 0-based month `m` of year `y`. -/
def daysToMonth (y : Nat) : Nat → Nat
  | 0 => 0
  | m + 1 => daysToMonth y m + monthLength y m

/-- Weekday (0 = Sunday, as returned by `Date.prototype.getDay`) of
`new Date(y, m, d)` with 0-based month `m` and 1-based day `d`; 1970-01-01
was a Thursday (weekday 4). This embeds the source's
`new Date(year, month, 1).getDay()` (src/index.tsx line 569). -/
def dayOfWeek (y m d : Nat) : Nat :=
  (4 + daysToYear (y + m / 12) + daysToMonth (y + m / 12) (m % 12) + (d - 1)) % 7

/-- Leading empty cells of the month grid: embeds
`Array(firstDayOfMonth).fill(null)` (src/index.tsx line 571). -/
def fillEmpty : Nat → List (Option CalDate)
  | 0 => []
  | n + 1 => none :: fillEmpty n

/-- Day cells of the month grid: embeds the push loop
`for (let i = 1; i <= daysInMonth; i++) monthGrid.push(new Date(year, month, i))`
(src/index.tsx line 572), pushing `count` cells starting at day `start`. -/
def pushDays (y m start : Nat) : Nat → List (Option CalDate)
  | 0 => []
  | c + 1 => some ⟨y, m, start⟩ :: pushDays y m (start + 1) c

/-- Month-mode grid of `calendarGrid` (src/index.tsx lines 565-582 and
src/unnamed/part_002 lines 690-704, identical logic): leading `null` cells for
the weekday index of day 1, then one cell per day of the month. -/
def calendarGrid (y m : Nat) : List (Option CalDate) :=
  fillEmpty (dayOfWeek y m 1) ++ pushDays y m 1 (daysInMonth y m)

/-- Drag-reschedule timestamp computation of `handleSurgeryDrop` in
src/index.tsx (lines 1289-1297) and src/unnamed/part_002 (lines 1541-1553):
both build the string
`${y}-${m+1}-${d}T${HH}:${MM}` from the target date's calendar fields and the
old timestamp's hours and minutes. The string carries no seconds field, so the
stored timestamp parses back with `second = 0`. -/
def reschedule (old : LocalDateTime) (target : CalDate) : LocalDateTime :=
  { year := target.year, month := target.month, day := target.day,
    hour := old.hour, minute := old.minute, second := 0 }

/-- Drag-reschedule timestamp computation of `handleSurgeryDrop` in
src/unnamed/part_000 (lines 1416-1427): `newDateTime.setHours(h, m, s)` copies
hours, minutes and seconds from the old timestamp onto the target date. -/
def rescheduleV000 (old : LocalDateTime) (target : CalDate) : LocalDateTime :=
  { year := target.year, month := target.month, day := target.day,
    hour := old.hour, minute := old.minute, second := old.second }

lemma fillEmpty_eq_replicate (n : Nat) : fillEmpty n = List.replicate n none := by
  induction n with
  | zero => rfl
  | succ k ih => simp [fillEmpty, List.replicate, ih]

lemma pushDays_eq_map (y m : Nat) :
    ∀ c start, pushDays y m start c =
      (List.range' start c).map (fun d => some ⟨y, m, d⟩) := by
  intro c
  induction c with
  | zero => intro start; rfl
  | succ k ih => intro start; simp [pushDays, List.range', ih]

lemma daysInMonth_bounds (y m : Nat) :
    28 ≤ daysInMonth y m ∧ daysInMonth y m ≤ 31 := by
  unfold daysInMonth
  have h : m % 12 < 12 := Nat.mod_lt _ (by norm_num)
  generalize (y + m / 12) = y' at *
  generalize hk : m % 12 = k at *
  interval_cases k <;> simp [monthLength] <;> split <;> omega

/-- C2: for every reference date, the month grid is exactly
(weekday index of day 1) leading empty cells followed by one cell per day of
the month, with no trailing padding; the day count lies in 28..31; and for
February 2024 this gives 4 empty cells plus 29 day cells, 33 cells total. -/
theorem calendarGrid_month_spec (y m : Nat) :
    calendarGrid y m =
      List.replicate (dayOfWeek y m 1) none ++
        (List.range' 1 (daysInMonth y m)).map (fun d => some ⟨y, m, d⟩) ∧
    (calendarGrid y m).length = dayOfWeek y m 1 + daysInMonth y m ∧
    28 ≤ daysInMonth y m ∧ daysInMonth y m ≤ 31 ∧
    dayOfWeek 2024 1 1 = 4 ∧ daysInMonth 2024 1 = 29 ∧
    (calendarGrid 2024 1).length = 33 := by
  obtain ⟨hlo, hhi⟩ := daysInMonth_bounds y m
  refine ⟨?_, ?_, hlo, hhi, by decide, by decide, by decide⟩
  · simp [calendarGrid, fillEmpty_eq_replicate, pushDays_eq_map]
  · simp [calendarGrid, fillEmpty_eq_replicate, pushDays_eq_map]

/-- C1 counterexample: in the src/index.tsx variant of `handleSurgeryDrop`
(the primary cited code), the produced timestamp string has no seconds field,
so an event at 14:30:45 dragged to 2024-03-15 yields 2024-03-15T14:30:00, not
2024-03-15T14:30:45 — the original second (45) is not preserved. Months are
0-based, so March is month 2. -/
theorem reschedule_drops_seconds :
    reschedule ⟨2024, 2, 10, 14, 30, 45⟩ ⟨2024, 2, 15⟩ =
      ⟨2024, 2, 15, 14, 30, 0⟩ ∧
    (⟨2024, 2, 15, 14, 30, 0⟩ : LocalDateTime) ≠ ⟨2024, 2, 15, 14, 30, 45⟩ := by
  exact ⟨rfl, by decide⟩

/-- C1 amended: the drag-reschedule computation takes the target date's
year/month/day and the original timestamp's hour and minute; the
src/unnamed/part_000 variant also preserves the original second, while the
src/index.tsx / part_002 variant emits a minutes-precision timestamp whose
second is 0. The spec's concrete example (an event at 2024-03-10T14:30:00
dragged to 2024-03-15, whose seconds are 00) yields 2024-03-15T14:30:00 in
both variants. -/
theorem reschedule_time_of_day (old : LocalDateTime) (target : CalDate) :
    (reschedule old target).year = target.year ∧
    (reschedule old target).month = target.month ∧
    (reschedule old target).day = target.day ∧
    (reschedule old target).hour = old.hour ∧
    (reschedule old target).minute = old.minute ∧
    (reschedule old target).second = 0 ∧
    (rescheduleV000 old target).year = target.year ∧
    (rescheduleV000 old target).month = target.month ∧
    (rescheduleV000 old target).day = target.day ∧
    (rescheduleV000 old target).hour = old.hour ∧
    (rescheduleV000 old target).minute = old.minute ∧
    (rescheduleV000 old target).second = old.second ∧
    reschedule ⟨2024, 2, 10, 14, 30, 0⟩ ⟨2024, 2, 15⟩ = ⟨2024, 2, 15, 14, 30, 0⟩ ∧
    rescheduleV000 ⟨2024, 2, 10, 14, 30, 0⟩ ⟨2024, 2, 15⟩ = ⟨2024, 2, 15, 14, 30, 0⟩ := by
  repeat' constructor

/-- C7: the drag-reschedule computation is idempotent — applying it a second
time with the same target date returns the same timestamp, in both the
src/index.tsx / part_002 string-building variant and the part_000
`setHours` variant. -/
theorem reschedule_idempotent (old : LocalDateTime) (target : CalDate) :
    reschedule (reschedule old target) target = reschedule old target ∧
    rescheduleV000 (rescheduleV000 old target) target = rescheduleV000 old target :=
  ⟨rfl, rfl⟩

/-- Surgery record of src/index.tsx (interface `Surgery`, lines 27-42). Status
fields are TypeScript string literals and are modelled as strings
(`auth_status ∈ {"Pendente","Liberado","Recusado"}`,
`surgery_status ∈ {"Agendada","Realizada","Cancelada"}`); `fees` is a JSONB
record modelled as an insertion-ordered association list. -/
structure Surgery where
  id : Nat
  patient_name : String
  main_surgeon_id : String
  participating_ids : List String
  date_time : LocalDateTime
  hospital_id : Nat
  insurance_id : Nat
  auth_status : String
  surgery_status : String
  fees : List (String × ℚ)
  material_cost : ℚ
  notes : String
  pre_op_xray_path : Option String
  post_op_xray_path : Option String
  deriving DecidableEq, Repr

/-- Surgery record of src/unnamed/part_000 (interface `Surgery`, lines 27-42):
same shape but `date_time` is nullable and `surgery_status` additionally
admits `"Solicitada"`. -/
structure Surgery000 where
  id : Nat
  patient_name : String
  main_surgeon_id : String
  participating_ids : List String
  date_time : Option LocalDateTime
  hospital_id : Nat
  insurance_id : Nat
  auth_status : String
  surgery_status : String
  fees : List (String × ℚ)
  material_cost : ℚ
  notes : String
  pre_op_xray_path : Option String
  post_op_xray_path : Option String
  deriving DecidableEq, Repr

/-- Advanced filter record (src/index.tsx line 560): each field is either the
sentinel `'all'` (modelled `none`) or a selected value compared as a string. -/
structure AdvancedFilters where
  auth_status : Option String
  surgery_status : Option String
  hospital_id : Option String
  insurance_id : Option String
  deriving DecidableEq, Repr

/-- Test of one advanced-filter early return
`if (filt !== 'all' && field !== filt) return false` — `true` means the
event is rejected by this predicate. -/
def activeFails (filt : Option String) (field : String) : Bool :=
  match filt with
  | none => false
  | some v => field != v

/-- Per-event predicate of `filteredSurgeries` in src/index.tsx lines 584-593,
embedded as the same chain of early returns. -/
def keepSurgery (doctorFilter : Option String) (f : AdvancedFilters)
    (s : Surgery) : Bool :=
  if (match doctorFilter with
      | none => false
      | some v => s.main_surgeon_id != v && !(s.participating_ids.contains v)) then false
  else if activeFails f.auth_status s.auth_status then false
  else if activeFails f.surgery_status s.surgery_status then false
  else if activeFails f.hospital_id (toString s.hospital_id) then false
  else if activeFails f.insurance_id (toString s.insurance_id) then false
  else true

/-- Per-event predicate of `filteredSurgeries` in src/unnamed/part_000 lines
620-630: same chain, but preceded by the baseline early return
`if (!['Agendada', 'Realizada'].includes(s.surgery_status)) return false`. -/
def keepSurgery000 (doctorFilter : Option String) (f : AdvancedFilters)
    (s : Surgery000) : Bool :=
  if !(["Agendada", "Realizada"].contains s.surgery_status) then false
  else if (match doctorFilter with
      | none => false
      | some v => s.main_surgeon_id != v && !(s.participating_ids.contains v)) then false
  else if activeFails f.auth_status s.auth_status then false
  else if activeFails f.surgery_status s.surgery_status then false
  else if activeFails f.hospital_id (toString s.hospital_id) then false
  else if activeFails f.insurance_id (toString s.insurance_id) then false
  else true

/-- Filter engine: `surgeries.filter(s => ...)` of src/index.tsx line 585. -/
def filteredSurgeries (doctorFilter : Option String) (f : AdvancedFilters)
    (surgeries : List Surgery) : List Surgery :=
  surgeries.filter (keepSurgery doctorFilter f)

/-- Modelled from the spec's words (for the refinement comparison of the
filter claims): an event, given by its field values, satisfies every active
predicate — the doctor predicate passes when the selected id is the primary
surgeon or a participant, and each status predicate is equality with the
selected value, with `none` (the `'all'` sentinel) disabled. -/
def passesActive (doctorFilter : Option String) (f : AdvancedFilters)
    (mainId : String) (parts : List String) (auth sstat : String)
    (hosp ins : Nat) : Prop :=
  (match doctorFilter with
   | none => True
   | some v => mainId = v ∨ v ∈ parts) ∧
  (match f.auth_status with
   | none => True
   | some v => auth = v) ∧
  (match f.surgery_status with
   | none => True
   | some v => sstat = v) ∧
  (match f.hospital_id with
   | none => True
   | some v => toString hosp = v) ∧
  (match f.insurance_id with
   | none => True
   | some v => toString ins = v)

lemma keepSurgery_iff (doctorFilter : Option String) (f : AdvancedFilters)
    (s : Surgery) :
    keepSurgery doctorFilter f s = true ↔
      passesActive doctorFilter f s.main_surgeon_id s.participating_ids
        s.auth_status s.surgery_status s.hospital_id s.insurance_id := by
  obtain ⟨a, st, h, i⟩ := f
  cases doctorFilter <;> cases a <;> cases st <;> cases h <;> cases i <;>
    simp [keepSurgery, activeFails, passesActive] <;> tauto

lemma keepSurgery000_iff (doctorFilter : Option String) (f : AdvancedFilters)
    (s : Surgery000) :
    keepSurgery000 doctorFilter f s = true ↔
      (passesActive doctorFilter f s.main_surgeon_id s.participating_ids
        s.auth_status s.surgery_status s.hospital_id s.insurance_id ∧
       (s.surgery_status = "Agendada" ∨ s.surgery_status = "Realizada")) := by
  obtain ⟨a, st, h, i⟩ := f
  cases doctorFilter <;> cases a <;> cases st <;> cases h <;> cases i <;>
    simp [keepSurgery000, keepSurgery, activeFails, passesActive] <;> tauto

/-- C4 counterexample: in the src/unnamed/part_000 variant of the filter
engine, with the doctor filter unset and every status filter on `'all'`, a
surgery whose lifecycle status is `"Cancelada"` satisfies every active
predicate (there are none) yet is rejected — the variant has an always-active
baseline predicate `surgery_status ∈ {Agendada, Realizada}`, so "kept iff
every active predicate holds" fails there. -/
theorem filter_baseline_counterexample :
    keepSurgery000 none ⟨none, none, none, none⟩
      ⟨1, "P", "d1", [], none, 2, 3, "Pendente", "Cancelada", [], 0, "", none, none⟩
      = false ∧
    passesActive none ⟨none, none, none, none⟩ "d1" [] "Pendente" "Cancelada" 2 3 := by
  exact ⟨rfl, by simp [passesActive]⟩

/-- C4 amended: the filter engine of src/index.tsx is exactly conjunctive —
an event is kept iff it satisfies every active predicate (doctor predicate:
selected id is the primary surgeon or a participant; each status predicate:
equality with the selected value, `'all'` disabling it). The
src/unnamed/part_000 variant is conjunctive over the same predicates plus one
always-active baseline predicate requiring
`surgery_status ∈ {"Agendada", "Realizada"}`. -/
theorem filter_conjunctive (doctorFilter : Option String) (f : AdvancedFilters)
    (surgeries : List Surgery) (s : Surgery) (s0 : Surgery000) :
    (s ∈ filteredSurgeries doctorFilter f surgeries ↔
      s ∈ surgeries ∧
        passesActive doctorFilter f s.main_surgeon_id s.participating_ids
          s.auth_status s.surgery_status s.hospital_id s.insurance_id) ∧
    (keepSurgery doctorFilter f s = true ↔
      passesActive doctorFilter f s.main_surgeon_id s.participating_ids
        s.auth_status s.surgery_status s.hospital_id s.insurance_id) ∧
    (keepSurgery000 doctorFilter f s0 = true ↔
      (passesActive doctorFilter f s0.main_surgeon_id s0.participating_ids
        s0.auth_status s0.surgery_status s0.hospital_id s0.insurance_id ∧
       (s0.surgery_status = "Agendada" ∨ s0.surgery_status = "Realizada"))) := by
  refine ⟨?_, keepSurgery_iff _ _ _, keepSurgery000_iff _ _ _⟩
  simp [filteredSurgeries, List.mem_filter, keepSurgery_iff]

/-- Change-feed delta delivered by the realtime channel (src/index.tsx lines
1176-1187): `INSERT` and `UPDATE` carry `payload.new`, `DELETE` carries
`payload.old.id`. -/
inductive SurgeryDelta where
  | insert (s : Surgery)
  | update (s : Surgery)
  | delete (id : Nat)
  deriving DecidableEq, Repr

/-- Fold of one delta into the in-memory collection (src/index.tsx lines
1181-1183): `INSERT` appends `payload.new`; `UPDATE` maps over the collection
replacing entries whose id matches; `DELETE` filters out the matching id. -/
def applyDelta (current : List Surgery) : SurgeryDelta → List Surgery
  | .insert s => current ++ [s]
  | .update s => current.map (fun t => if t.id == s.id then s else t)
  | .delete i => current.filter (fun t => t.id != i)

/-- C5 counterexample: the `INSERT` branch appends unconditionally — it does
not check whether an event with the same id is already present. Folding an
insert delta whose id 1 is already in the collection produces two entries with
id 1, so the collection's ids are no longer unique, contradicting the claim
that the insert is applied only if the id is absent. -/
theorem applyDelta_insert_duplicates :
    applyDelta
      [⟨1, "Ana", "d1", [], ⟨2024, 2, 10, 14, 30, 0⟩, 2, 3, "Pendente",
        "Agendada", [], 0, "", none, none⟩]
      (.insert ⟨1, "Bia", "d2", [], ⟨2024, 2, 11, 9, 0, 0⟩, 2, 3, "Pendente",
        "Agendada", [], 0, "", none, none⟩) =
      [⟨1, "Ana", "d1", [], ⟨2024, 2, 10, 14, 30, 0⟩, 2, 3, "Pendente",
        "Agendada", [], 0, "", none, none⟩,
       ⟨1, "Bia", "d2", [], ⟨2024, 2, 11, 9, 0, 0⟩, 2, 3, "Pendente",
        "Agendada", [], 0, "", none, none⟩] ∧
    ¬ (List.map Surgery.id
        [⟨1, "Ana", "d1", [], ⟨2024, 2, 10, 14, 30, 0⟩, 2, 3, "Pendente",
          "Agendada", [], 0, "", none, none⟩,
         ⟨1, "Bia", "d2", [], ⟨2024, 2, 11, 9, 0, 0⟩, 2, 3, "Pendente",
          "Agendada", [], 0, "", none, none⟩]).Nodup := by
  exact ⟨rfl, by decide⟩

/-- C5 amended: the delta fold appends an insert unconditionally (no
presence check), replaces every event whose id matches an update's id while
keeping ids and all other events unchanged, and removes exactly the events
with a delete's id; consequently ids stay unique under updates and deletes,
and under an insert only when the inserted id was absent. -/
theorem applyDelta_spec (cur : List Surgery) (s : Surgery) (i : Nat) :
    applyDelta cur (.insert s) = cur ++ [s] ∧
    (∀ t, t ∈ applyDelta cur (.delete i) ↔ t ∈ cur ∧ t.id ≠ i) ∧
    (applyDelta cur (.update s)).map Surgery.id = cur.map Surgery.id ∧
    (∀ t ∈ cur, t.id ≠ s.id → t ∈ applyDelta cur (.update s)) ∧
    (s.id ∈ cur.map Surgery.id → s ∈ applyDelta cur (.update s)) ∧
    ((cur.map Surgery.id).Nodup → s.id ∉ cur.map Surgery.id →
      ((applyDelta cur (.insert s)).map Surgery.id).Nodup) ∧
    ((cur.map Surgery.id).Nodup →
      ((applyDelta cur (.delete i)).map Surgery.id).Nodup) := by
  refine ⟨rfl, ?_, ?_, ?_, ?_, ?_, ?_⟩
  · intro t
    simp [applyDelta, List.mem_filter]
  · rw [show applyDelta cur (.update s) =
        cur.map (fun t => if t.id == s.id then s else t) from rfl, List.map_map]
    refine List.map_congr_left ?_
    intro t _
    by_cases h : t.id = s.id <;> simp [Function.comp, h]
  · intro t ht h
    refine List.mem_map.mpr ⟨t, ht, ?_⟩
    simp [h]
  · intro h
    obtain ⟨t, ht, hid⟩ := List.mem_map.mp h
    refine List.mem_map.mpr ⟨t, ht, ?_⟩
    simp [hid]
  · intro hnd habs
    rw [show applyDelta cur (.insert s) = cur ++ [s] from rfl, List.map_append]
    simp [List.nodup_append, hnd, habs]
  · intro hnd
    exact ((List.filter_sublist cur).map Surgery.id).nodup hnd

/-- C5 witness: folding an insert with the fresh id 2 into a singleton
collection with id 1 keeps the ids unique. -/
theorem applyDelta_spec_witness :
    ((applyDelta
        [⟨1, "Ana", "d1", [], ⟨2024, 2, 10, 14, 30, 0⟩, 2, 3, "Pendente",
          "Agendada", [], 0, "", none, none⟩]
        (.insert ⟨2, "Bia", "d2", [], ⟨2024, 2, 11, 9, 0, 0⟩, 2, 3, "Pendente",
          "Agendada", [], 0, "", none, none⟩)).map Surgery.id).Nodup :=
  (applyDelta_spec
    [⟨1, "Ana", "d1", [], ⟨2024, 2, 10, 14, 30, 0⟩, 2, 3, "Pendente",
      "Agendada", [], 0, "", none, none⟩]
    ⟨2, "Bia", "d2", [], ⟨2024, 2, 11, 9, 0, 0⟩, 2, 3, "Pendente",
      "Agendada", [], 0, "", none, none⟩ 0).2.2.2.2.2.1 (by decide) (by decide)

/-- Embeds one step of `new Set(allDoctorIds)`: a JavaScript `Set` adds an
element at the end of its insertion order unless it is already present. -/
def setInsert (acc : List String) (x : String) : List String :=
  if x ∈ acc then acc else acc ++ [x]

/-- Embeds `[...new Set(l)]`: first occurrences of the elements of `l`, in
order. -/
def uniqFirst (l : List String) : List String :=
  l.foldl setInsert []

/-- Record lookup `fees[k]`, `none` when the key is absent. -/
def jsLookup (fees : List (String × ℚ)) (k : String) : Option ℚ :=
  (fees.find? (fun p => p.1 == k)).map (fun p => p.2)

/-- Fee-map reconciliation effect of `SurgeryModal` (src/index.tsx lines
304-312): collects `[formData.main_surgeon_id, ...participating_ids]`,
deduplicates with `new Set`, drops falsy (empty) ids with `.filter(Boolean)`,
and rebuilds the fees record with `newFees[id] = prev.fees[id] || 0` —
keeping the previous fee of retained members and defaulting new ones to 0
(a previous fee of 0 is falsy, and `0 || 0` is again 0). -/
def reconcileFees (mainSurgeonId : String) (participatingIds : List String)
    (prevFees : List (String × ℚ)) : List (String × ℚ) :=
  ((uniqFirst (mainSurgeonId :: participatingIds)).filter (fun id => id != "")).map
    (fun id => (id, (jsLookup prevFees id).getD 0))

lemma mem_setInsert (acc : List String) (x a : String) :
    a ∈ setInsert acc x ↔ a ∈ acc ∨ a = x := by
  unfold setInsert
  by_cases h : x ∈ acc
  · simp only [if_pos h]
    constructor
    · exact Or.inl
    · rintro (ha | rfl)
      · exact ha
      · exact h
  · simp [if_neg h]

lemma mem_foldl_setInsert (l : List String) :
    ∀ acc a, a ∈ l.foldl setInsert acc ↔ a ∈ acc ∨ a ∈ l := by
  induction l with
  | nil => simp
  | cons x xs ih =>
    intro acc a
    rw [List.foldl_cons, ih, mem_setInsert]
    simp only [List.mem_cons]
    tauto

lemma mem_uniqFirst (l : List String) (a : String) :
    a ∈ uniqFirst l ↔ a ∈ l := by
  unfold uniqFirst
  rw [mem_foldl_setInsert]
  simp

lemma nodup_setInsert (acc : List String) (x : String) (h : acc.Nodup) :
    (setInsert acc x).Nodup := by
  unfold setInsert
  by_cases hx : x ∈ acc
  · simpa [if_pos hx] using h
  · simp [if_neg hx, List.nodup_append, h, hx]

lemma nodup_foldl_setInsert (l : List String) :
    ∀ acc, acc.Nodup → (l.foldl setInsert acc).Nodup := by
  induction l with
  | nil => intro acc h; simpa using h
  | cons x xs ih =>
    intro acc h
    rw [List.foldl_cons]
    exact ih _ (nodup_setInsert acc x h)

lemma nodup_uniqFirst (l : List String) : (uniqFirst l).Nodup :=
  nodup_foldl_setInsert l [] List.nodup_nil

/-- C3: after reconciliation the fee map's key set is exactly the non-empty
members of {primary surgeon} ∪ {participants}, without duplicates; every
retained member keeps its previous fee and every newly added member gets the
default 0. -/
theorem reconcileFees_spec (main : String) (parts : List String)
    (prev : List (String × ℚ)) :
    (∀ id, id ∈ (reconcileFees main parts prev).map Prod.fst ↔
      ((id = main ∨ id ∈ parts) ∧ id ≠ "")) ∧
    ((reconcileFees main parts prev).map Prod.fst).Nodup ∧
    (∀ id v, (id, v) ∈ reconcileFees main parts prev →
      v = (jsLookup prev id).getD 0) ∧
    (∀ id v, (id, v) ∈ reconcileFees main parts prev →
      jsLookup prev id = none → v = 0) ∧
    (∀ id v w, (id, v) ∈ reconcileFees main parts prev →
      jsLookup prev id = some w → v = w) := by
  have hkeys : (reconcileFees main parts prev).map Prod.fst =
      (uniqFirst (main :: parts)).filter (fun id => id != "") := by
    rw [reconcileFees, List.map_map,
      show (Prod.fst ∘ fun id : String => (id, (jsLookup prev id).getD 0)) = id
        from rfl, List.map_id]
  have hval : ∀ id v, (id, v) ∈ reconcileFees main parts prev →
      v = (jsLookup prev id).getD 0 := by
    intro id v hm
    obtain ⟨a, -, ha⟩ := List.mem_map.mp hm
    simp only [Prod.mk.injEq] at ha
    obtain ⟨rfl, rfl⟩ := ha
    rfl
  refine ⟨?_, ?_, hval, ?_, ?_⟩
  · intro id
    rw [hkeys, List.mem_filter, mem_uniqFirst, List.mem_cons, bne_iff_ne]
  · rw [hkeys]
    exact (nodup_uniqFirst _).filter _
  · intro id v hm hnone
    rw [hval id v hm, hnone]
    rfl
  · intro id v w hm hsome
    rw [hval id v hm, hsome]
    rfl

/-- C3 witness: with primary surgeon d1, participants [d2, d1, ""], and
previous fees {d2 ↦ 5, d3 ↦ 7}, the reconciled map is {d1 ↦ 0, d2 ↦ 5} —
d2 keeps its fee. -/
theorem reconcileFees_spec_witness :
    (5 : ℚ) = (jsLookup [("d2", 5), ("d3", 7)] "d2").getD 0 :=
  (reconcileFees_spec "d1" ["d2", "d1", ""] [("d2", 5), ("d3", 7)]).2.2.1
    "d2" 5 (by decide)

/-- Participant record of src/index.tsx (interface `Doctor`, lines 9-15). -/
structure Doctor where
  id : String
  name : String
  email : String
  color : String
  is_admin : Option Bool
  deriving DecidableEq, Repr

/-- Embeds `getUserById(id, users)` — `users.find(u => u.id === id)`. -/
def getUserById (id : String) (users : List Doctor) : Option Doctor :=
  users.find? (fun d => d.id == id)

/-- Label under which a fee entry is accumulated in the by-participant
breakdown (src/index.tsx line 696): the participant's display name, or the
sentinel `'Desconhecido'` when the id matches no known participant (or the
matched name is the empty string, which is falsy under `|| 'Desconhecido'`). -/
def doctorLabel (id : String) (users : List Doctor) : String :=
  match getUserById id users with
  | some d => if d.name == "" then "Desconhecido" else d.name
  | none => "Desconhecido"

/-- Embeds `Object.values(s.fees).reduce((sum, fee) => sum + fee, 0)`
(src/index.tsx line 693). -/
def sumFees (s : Surgery) : ℚ :=
  s.fees.foldl (fun acc p => acc + p.2) 0

/-- Embeds `filteredSurgeries.filter(s => s.surgery_status === 'Realizada')`
(src/index.tsx line 692); the already-filtered event list is the input. -/
def realizedOf (l : List Surgery) : List Surgery :=
  l.filter (fun s => s.surgery_status == "Realizada")

/-- Embeds the `totalRevenue` reduce of src/index.tsx line 693. -/
def totalRevenue (l : List Surgery) : ℚ :=
  (realizedOf l).foldl (fun acc s => acc + sumFees s) 0

/-- Embeds `acc[k] = (acc[k] || 0) + v` on a plain object: the single entry
with key `k` is updated in place, or a new entry is appended in insertion
order (an existing value of 0 is falsy, and `0 + v = v` either way). -/
def bump : List (String × ℚ) → String → ℚ → List (String × ℚ)
  | [], k, v => [(k, v)]
  | (k', v') :: rest, k, v =>
    if k' == k then (k', v' + v) :: rest else (k', v') :: bump rest k v

/-- Inner loop of `revenueByDoctor` (src/index.tsx lines 695-698):
`for (const doctorId in s.fees) acc[name] = (acc[name] || 0) + s.fees[doctorId]`. -/
def accumFees (users : List Doctor) (acc : List (String × ℚ))
    (fees : List (String × ℚ)) : List (String × ℚ) :=
  fees.foldl (fun a p => bump a (doctorLabel p.1 users) p.2) acc

/-- Embeds the `revenueByDoctor` reduce over realized surgeries
(src/index.tsx lines 694-699). -/
def revenueByDoctor (l : List Surgery) (users : List Doctor) :
    List (String × ℚ) :=
  (realizedOf l).foldl (fun acc s => accumFees users acc s.fees) []

/-- Sum of the values of an association list (used to state that the
by-participant breakdown drops nothing). -/
def sumValues (l : List (String × ℚ)) : ℚ :=
  (l.map Prod.snd).sum

lemma foldl_add_eq {α : Type} (f : α → ℚ) (l : List α) :
    ∀ a : ℚ, l.foldl (fun acc x => acc + f x) a = a + (l.map f).sum := by
  induction l with
  | nil => intro a; simp
  | cons x xs ih =>
    intro a
    rw [List.foldl_cons, ih, List.map_cons, List.sum_cons]
    ring

lemma sumFees_eq (s : Surgery) : sumFees s = (s.fees.map Prod.snd).sum := by
  rw [sumFees, foldl_add_eq (fun p => p.2) s.fees 0, zero_add]

lemma totalRevenue_eq (l : List Surgery) :
    totalRevenue l = ((realizedOf l).map sumFees).sum := by
  rw [totalRevenue, foldl_add_eq sumFees (realizedOf l) 0, zero_add]

lemma sumValues_bump (acc : List (String × ℚ)) (k : String) (v : ℚ) :
    sumValues (bump acc k v) = sumValues acc + v := by
  induction acc with
  | nil => simp [bump, sumValues]
  | cons p rest ih =>
    obtain ⟨k', v'⟩ := p
    simp only [bump]
    split
    · simp only [sumValues, List.map_cons, List.sum_cons]
      ring
    · simp only [sumValues, List.map_cons, List.sum_cons] at ih ⊢
      rw [ih]
      ring

lemma sumValues_accumFees (users : List Doctor) (fees : List (String × ℚ)) :
    ∀ acc, sumValues (accumFees users acc fees) =
      sumValues acc + (fees.map Prod.snd).sum := by
  induction fees with
  | nil => intro acc; simp [accumFees, sumValues]
  | cons p rest ih =>
    intro acc
    rw [accumFees, List.foldl_cons]
    have := ih (bump acc (doctorLabel p.1 users) p.2)
    rw [accumFees] at this
    rw [this, sumValues_bump, List.map_cons, List.sum_cons]
    ring

lemma sumValues_revenueFold (users : List Doctor) (l : List Surgery) :
    ∀ acc, sumValues (l.foldl (fun a s => accumFees users a s.fees) acc) =
      sumValues acc + (l.map sumFees).sum := by
  induction l with
  | nil => intro acc; simp
  | cons s rest ih =>
    intro acc
    rw [List.foldl_cons, ih, sumValues_accumFees, ← sumFees_eq, List.map_cons,
      List.sum_cons]
    ring

/-- C6: revenue counts only Completed (`'Realizada'`) events —
`totalRevenue` is the sum of all fee values of the filtered events whose
status is `'Realizada'`; an event in any other lifecycle state (in
particular `'Cancelada'`) contributes nothing; the by-participant breakdown
accumulates each fee under its participant's bucket and drops nothing (its
values sum to `totalRevenue`), with fee entries whose participant id matches
no known participant going to the sentinel `'Desconhecido'` bucket. -/
theorem reports_revenue_spec (l l1 l2 : List Surgery) (users : List Doctor)
    (s : Surgery) (id : String) :
    totalRevenue l =
      ((l.filter (fun t => t.surgery_status == "Realizada")).map
        (fun t => (t.fees.map Prod.snd).sum)).sum ∧
    (s.surgery_status ≠ "Realizada" →
      totalRevenue (l1 ++ s :: l2) = totalRevenue (l1 ++ l2)) ∧
    sumValues (revenueByDoctor l users) = totalRevenue l ∧
    (getUserById id users = none → doctorLabel id users = "Desconhecido") := by
  refine ⟨?_, ?_, ?_, ?_⟩
  · rw [totalRevenue_eq, realizedOf]
    exact congrArg List.sum (List.map_congr_left (fun t _ => sumFees_eq t))
  · intro h
    have hb : (s.surgery_status == "Realizada") = false :=
      beq_false_of_ne h
    rw [totalRevenue_eq, totalRevenue_eq, realizedOf, realizedOf,
      List.filter_append, List.filter_append, List.filter_cons, hb]
    simp
  · rw [revenueByDoctor, sumValues_revenueFold, totalRevenue_eq]
    simp [sumValues]
  · intro h
    rw [doctorLabel, h]

/-- C6 witness: removing a surgery whose status is `'Cancelada'` does not
change the total revenue. -/
theorem reports_revenue_spec_witness :
    totalRevenue
      ([⟨1, "Ana", "d1", [], ⟨2024, 2, 10, 14, 30, 0⟩, 2, 3, "Pendente",
          "Realizada", [("d1", 100)], 0, "", none, none⟩] ++
        ⟨2, "Bia", "d2", [], ⟨2024, 2, 11, 9, 0, 0⟩, 2, 3, "Pendente",
          "Cancelada", [("d2", 50)], 0, "", none, none⟩ ::
        []) =
    totalRevenue
      ([⟨1, "Ana", "d1", [], ⟨2024, 2, 10, 14, 30, 0⟩, 2, 3, "Pendente",
          "Realizada", [("d1", 100)], 0, "", none, none⟩] ++ []) :=
  (reports_revenue_spec []
    [⟨1, "Ana", "d1", [], ⟨2024, 2, 10, 14, 30, 0⟩, 2, 3, "Pendente",
      "Realizada", [("d1", 100)], 0, "", none, none⟩]
    []
    []
    ⟨2, "Bia", "d2", [], ⟨2024, 2, 11, 9, 0, 0⟩, 2, 3, "Pendente",
      "Cancelada", [("d2", 50)], 0, "", none, none⟩
    "d2").2.1 (by decide)

/-- Surgery record of src/unnamed/part_002 (interface `Surgery`, lines
25-40): string event id, numeric participant ids, non-nullable `dateTime`,
inline attachment objects `{name, data}`. -/
structure Surgery002 where
  id : String
  patientName : String
  mainSurgeonId : Nat
  participatingIds : List Nat
  dateTime : LocalDateTime
  hospitalId : String
  insuranceId : String
  authStatus : String
  surgeryStatus : String
  fees : List (String × ℚ)
  materialCost : ℚ
  notes : String
  preOpXRay : Option (String × String)
  postOpXRay : Option (String × String)
  deriving DecidableEq, Repr

/-- Embeds `handleSurgeryDrop` of src/unnamed/part_002 (lines 1541-1553): it
looks the surgery up by id in the local collection; on a miss it returns the
collection unchanged, otherwise it maps over the collection replacing the
matching entry by a copy of the found surgery whose `dateTime` is the
rescheduled timestamp. -/
def handleSurgeryDropV002 (prev : List Surgery002) (surgeryId : String)
    (newDate : CalDate) : List Surgery002 :=
  match prev.find? (fun s => s.id == surgeryId) with
  | none => prev
  | some m =>
    prev.map (fun s =>
      if s.id == surgeryId then { m with dateTime := reschedule m.dateTime newDate }
      else s)

/-- Embeds `handleSurgeryDrop` of src/unnamed/part_000 (lines 1416-1427) as
the write it submits: `none` models the early return (no write at all), which
the code takes when the id lookup misses or the found surgery's `date_time`
is null; otherwise the backend is asked to set the matching row's `date_time`
to the rescheduled timestamp. The local collection is never mutated by this
handler (state arrives back through the change feed), and the function is
total — no exception is thrown. -/
def handleSurgeryDropV000 (surgeries : List Surgery000) (surgeryId : Nat)
    (newDate : CalDate) : Option (Nat × LocalDateTime) :=
  match surgeries.find? (fun s => s.id == surgeryId) with
  | none => none
  | some m =>
    match m.date_time with
    | none => none
    | some old => some (surgeryId, rescheduleV000 old newDate)

/-- C8: the drag-reschedule operation is a no-op when the id lookup misses or
the matching event has a null timestamp — the part_000 handler submits no
write in either case, and the part_002 handler returns the collection
unchanged on a lookup miss (its event type has no null timestamps); neither
handler throws (both are total functions). -/
theorem surgeryDrop_noop (l000 : List Surgery000) (l2 : List Surgery002)
    (i : Nat) (sid : String) (d : CalDate) (m : Surgery000) :
    (l000.find? (fun s => s.id == i) = none →
      handleSurgeryDropV000 l000 i d = none) ∧
    (l000.find? (fun s => s.id == i) = some m → m.date_time = none →
      handleSurgeryDropV000 l000 i d = none) ∧
    (l2.find? (fun s => s.id == sid) = none →
      handleSurgeryDropV002 l2 sid d = l2) := by
  refine ⟨?_, ?_, ?_⟩
  · intro h
    rw [handleSurgeryDropV000, h]
  · intro h hdt
    rw [handleSurgeryDropV000, h]
    simp [hdt]
  · intro h
    rw [handleSurgeryDropV002, h]

/-- C8 witness: dropping surgery id 2 onto 2024-03-15 when the collection
holds only id 1 (with a null timestamp, so both guards are exercised across
the conjuncts) submits no write. -/
theorem surgeryDrop_noop_witness :
    handleSurgeryDropV000
      [⟨1, "Ana", "d1", [], none, 2, 3, "Pendente", "Solicitada", [], 0, "",
        none, none⟩] 2 ⟨2024, 2, 15⟩ = none :=
  (surgeryDrop_noop
    [⟨1, "Ana", "d1", [], none, 2, 3, "Pendente", "Solicitada", [], 0, "",
      none, none⟩] [] 2 "x" ⟨2024, 2, 15⟩
    ⟨1, "Ana", "d1", [], none, 2, 3, "Pendente", "Solicitada", [], 0, "",
      none, none⟩).1 (by decide)

/-- C10: frame property of the part_002 drag-reschedule — when the event ids
are unique and the lookup succeeds, the updated collection is exactly the
input with the matching event's `dateTime` replaced by the rescheduled
timestamp: every other field of that event and every non-matching event are
unchanged, and the length is preserved. -/
theorem surgeryDrop_frame (prev : List Surgery002) (sid : String)
    (d : CalDate) (m : Surgery002)
    (hfind : prev.find? (fun s => s.id == sid) = some m)
    (hnd : (prev.map Surgery002.id).Nodup) :
    handleSurgeryDropV002 prev sid d =
      prev.map (fun s =>
        if s.id = sid then { s with dateTime := reschedule s.dateTime d }
        else s) ∧
    (handleSurgeryDropV002 prev sid d).length = prev.length := by
  have hm : m ∈ prev := List.mem_of_find?_eq_some hfind
  have hmid : m.id = sid := by
    have := List.find?_some hfind
    exact beq_iff_eq.mp this
  have hmap : handleSurgeryDropV002 prev sid d =
      prev.map (fun s =>
        if s.id = sid then { s with dateTime := reschedule s.dateTime d }
        else s) := by
    rw [handleSurgeryDropV002, hfind]
    refine List.map_congr_left ?_
    intro t ht
    by_cases h : t.id = sid
    · have ht2 : t = m :=
        List.inj_on_of_nodup_map hnd ht hm (by rw [h, hmid])
      simp [h, ht2]
    · simp [h]
  exact ⟨hmap, by rw [hmap, List.length_map]⟩

/-- C10 witness: in a two-event collection, rescheduling event "a" to
2024-03-15 changes only that event's timestamp and leaves event "b" intact. -/
theorem surgeryDrop_frame_witness :
    handleSurgeryDropV002
      [⟨"a", "Ana", 1, [], ⟨2024, 2, 10, 14, 30, 0⟩, "h1", "i1", "Pendente",
        "Agendada", [], 0, "", none, none⟩,
       ⟨"b", "Bia", 2, [], ⟨2024, 2, 11, 9, 0, 0⟩, "h1", "i1", "Pendente",
        "Agendada", [], 0, "", none, none⟩] "a" ⟨2024, 2, 15⟩ =
      List.map (fun s =>
        if s.id = "a" then { s with dateTime := reschedule s.dateTime ⟨2024, 2, 15⟩ }
        else s)
      [⟨"a", "Ana", 1, [], ⟨2024, 2, 10, 14, 30, 0⟩, "h1", "i1", "Pendente",
        "Agendada", [], 0, "", none, none⟩,
       ⟨"b", "Bia", 2, [], ⟨2024, 2, 11, 9, 0, 0⟩, "h1", "i1", "Pendente",
        "Agendada", [], 0, "", none, none⟩] :=
  (surgeryDrop_frame
    [⟨"a", "Ana", 1, [], ⟨2024, 2, 10, 14, 30, 0⟩, "h1", "i1", "Pendente",
      "Agendada", [], 0, "", none, none⟩,
     ⟨"b", "Bia", 2, [], ⟨2024, 2, 11, 9, 0, 0⟩, "h1", "i1", "Pendente",
      "Agendada", [], 0, "", none, none⟩] "a" ⟨2024, 2, 15⟩
    ⟨"a", "Ana", 1, [], ⟨2024, 2, 10, 14, 30, 0⟩, "h1", "i1", "Pendente",
      "Agendada", [], 0, "", none, none⟩ (by decide) (by decide)).1

/-- Character class `[a-zA-Z0-9.\-_]` of the sanitization regex in
src/unnamed/part_000 line 1328. -/
def allowedChar (c : Char) : Bool :=
  ('a' ≤ c && c ≤ 'z') || ('A' ≤ c && c ≤ 'Z') || ('0' ≤ c && c ≤ '9') ||
    c == '.' || c == '-' || c == '_'

/-- Combining diacritical marks U+0300–U+036F, the class removed by
`.replace(/[̀-ͯ]/g, '')`. -/
def isCombiningMark (c : Char) : Bool :=
  0x300 ≤ c.toNat && c.toNat ≤ 0x36F

/-- Whitespace as matched by the regex class `\s` (the ASCII cases plus
no-break space; the remaining Unicode space separators are likewise outside
`allowedChar`, so the theorems below do not depend on the exact extent). -/
def isJsWhitespace (c : Char) : Bool :=
  c == ' ' || c == '\t' || c == '\n' || c == '\r' || c.toNat == 11 ||
    c.toNat == 12 || c.toNat == 0xA0

/-- Embeds `.replace(/\s+/g, '_')`: each maximal run of whitespace becomes a
single underscore; `inRun` records whether the previous character was part of
a whitespace run already replaced. -/
def wsCollapse : Bool → List Char → List Char
  | _, [] => []
  | inRun, c :: cs =>
    if isJsWhitespace c then
      (if inRun then [] else ['_']) ++ wsCollapse true cs
    else c :: wsCollapse false cs

/-- Embeds `sanitizeFilename` of src/unnamed/part_000 (lines 1327-1329):
`name.normalize('NFD').replace(/[̀-ͯ]/g, '')
.replace(/[^a-zA-Z0-9.\-_]/g, '_').replace(/\s+/g, '_')`.
The Unicode NFD normalisation is an external runtime facility; it is passed
in as a per-character decomposition `nfd` (on the precomposed Latin letters
that occur in filenames, NFD decomposes each character independently into a
base letter followed by combining marks). The properties proved below hold
for every `nfd`. -/
def sanitizeFilename (nfd : Char → List Char) (name : String) : String :=
  String.mk (wsCollapse false
    (((name.toList.flatMap nfd).filter (fun c => !isCombiningMark c)).map
      (fun c => if allowedChar c then c else '_')))

/-- Small concrete NFD table for the demonstration instance: `ç`, `ã` and
`á` decompose into their base letter plus a combining mark (U+0327 cedilla,
U+0303 tilde, U+0301 acute); everything else is NFD-invariant here. -/
def nfdLatinDemo (c : Char) : List Char :=
  if c = 'ç' then ['c', Char.ofNat 0x327]
  else if c = 'ã' then ['a', Char.ofNat 0x303]
  else if c = 'á' then ['a', Char.ofNat 0x301]
  else [c]

/-- Attachment path built by `handleSaveSurgery` in src/index.tsx (lines
1210-1232): `${loggedInUser.id}/${Date.now()}-${files.preOp.name}` — the raw
original filename, with no sanitization step. -/
def uploadPathIndex (ownerId : String) (nowMs : Nat) (name : String) : String :=
  ownerId ++ "/" ++ toString nowMs ++ "-" ++ name

/-- Attachment path built by `handleSaveSurgery` in src/unnamed/part_000
(lines 1330-1346): `${loggedInUser.id}/${Date.now()}-${sanitizedName}`. -/
def uploadPathV000 (nfd : Char → List Char) (ownerId : String) (nowMs : Nat)
    (name : String) : String :=
  ownerId ++ "/" ++ toString nowMs ++ "-" ++ sanitizeFilename nfd name

lemma mem_wsCollapse (a : Char) :
    ∀ (l : List Char) (b : Bool), a ∈ wsCollapse b l → a = '_' ∨ a ∈ l := by
  intro l
  induction l with
  | nil => intro b h; simp [wsCollapse] at h
  | cons c cs ih =>
    intro b h
    rw [wsCollapse] at h
    by_cases hw : isJsWhitespace c
    · rw [if_pos hw] at h
      rcases List.mem_append.mp h with h1 | h2
      · left
        cases b <;> simpa using h1
      · rcases ih true h2 with h3 | h3
        · exact Or.inl h3
        · exact Or.inr (List.mem_cons_of_mem c h3)
    · rw [if_neg hw] at h
      rcases List.mem_cons.mp h with h1 | h2
      · exact Or.inr (h1 ▸ List.mem_cons_self c cs)
      · rcases ih false h2 with h3 | h3
        · exact Or.inl h3
        · exact Or.inr (List.mem_cons_of_mem c h3)

/-- C9 counterexample: the src/index.tsx upload path does not sanitize the
filename — uploading `a b.png` (owner `u1`, timestamp 5) yields the path
`u1/5-a b.png`, whose filename portion contains the space character, which is
outside the allowed class `[a-zA-Z0-9.\-_]`. -/
theorem uploadPath_unsanitized :
    uploadPathIndex "u1" 5 "a b.png" = "u1/5-a b.png" ∧
    allowedChar ' ' = false ∧
    ' ' ∈ "a b.png".toList := by
  refine ⟨rfl, rfl, by decide⟩

/-- C9 amended: the src/unnamed/part_000 variant builds the path
`{ownerId}/{millisecondTimestamp}-{sanitizedFilename}` and its sanitized
filename contains only characters from `[a-zA-Z0-9.\-_]`, whatever the NFD
decomposition does; diacritics are stripped keeping the base letter and
whitespace becomes underscores (demonstrated on `raio x ação.png`). The
src/index.tsx variant instead uses the raw unsanitized filename. -/
theorem sanitizeFilename_spec (nfd : Char → List Char) (owner name : String)
    (now : Nat) :
    uploadPathV000 nfd owner now name =
      owner ++ "/" ++ toString now ++ "-" ++ sanitizeFilename nfd name ∧
    (∀ c ∈ (sanitizeFilename nfd name).toList, allowedChar c = true) ∧
    sanitizeFilename nfdLatinDemo "raio x ação.png" = "raio_x_acao.png" ∧
    uploadPathIndex owner now name = owner ++ "/" ++ toString now ++ "-" ++ name := by
  refine ⟨rfl, ?_, by decide, rfl⟩
  intro c hc
  have hc' : c = '_' ∨ c ∈
      ((name.toList.flatMap nfd).filter (fun c => !isCombiningMark c)).map
        (fun c => if allowedChar c then c else '_') :=
    mem_wsCollapse c _ false hc
  rcases hc' with rfl | hmem
  · rfl
  · obtain ⟨a, -, ha⟩ := List.mem_map.mp hmem
    by_cases hall : allowedChar a = true
    · rw [← ha, if_pos hall]
      exact hall
    · rw [← ha, if_neg hall]
      rfl

/-- C9 witness: every character of the sanitized `a b.png` is in the allowed
class — in particular its first character. -/
theorem sanitizeFilename_spec_witness :
    allowedChar 'a' = true :=
  (sanitizeFilename_spec nfdLatinDemo "u1" "a b.png" 5).2.1 'a' (by decide)
